import Mathlib

/-!
Verification of the core of `soccer_team_generator.py`: the player parser
`get_player_info`, the balancer `make_teams`, and the presentation-layer
average-skill expression shared by `display_teams` and `generate_pdf`.

Modelling conventions:
* Python strings are modelled as `List Char`; concrete inputs are written as
  Lean string literals and converted with `String.data`.
* Python `int(s)` is modelled for ASCII decimal literals: surrounding
  whitespace stripped, an optional single sign, then one or more digits;
  a failed parse (`ValueError`) is `none`.
* `str.upper`/`str.lower` are modelled by `Char.toUpper`/`Char.toLower`
  (ASCII; the names in scope are ASCII).
* Python's stable sorts (`sorted(..., reverse=True)` and `list.sort(key=...)`)
  are modelled by a stable insertion sort `stableSort`.
* The float division in the average-skill expression is modelled exactly
  over `Rat`.
* A run-time error (`ZeroDivisionError` from `i % num_teams` when
  `num_teams = 0`, or from `i % len(colors)` when the palette is empty) is
  modelled by `make_teams` returning `none`.
* The palette shuffle `random.shuffle(colors)` is modelled by passing the
  post-shuffle palette as the explicit argument `colors`; in the program it
  is always a permutation of the fixed 8-entry `TEAM_COLORS`.
-/

namespace Soccer

/-- Whitespace stripped by Python `str.strip()` (ASCII range). -/
def pySpace (c : Char) : Bool :=
  c == ' ' || c == '\t' || c == '\n' || c == '\r' || c == '\x0b' || c == '\x0c'

/-- Python `str.lstrip()`. -/
def lstripChars (l : List Char) : List Char := l.dropWhile pySpace

/-- Python `str.rstrip()`. -/
def rstripChars (l : List Char) : List Char := (l.reverse.dropWhile pySpace).reverse

/-- Python `str.strip()`. -/
def pyStrip (l : List Char) : List Char := rstripChars (lstripChars l)

/-- Python `str.split(',')`: e.g. `""` ↦ `[""]`, `"a,,b"` ↦ `["a","","b"]`. -/
def splitOnComma : List Char → List (List Char)
  | [] => [[]]
  | c :: rest =>
      if c = ',' then [] :: splitOnComma rest
      else
        match splitOnComma rest with
        | [] => [[c]]
        | g :: gs => (c :: g) :: gs

/-- Index of the last occurrence of `c` (Python `str.rfind`, `none` for -1). -/
def rfindIdx (c : Char) : List Char → Option Nat
  | [] => none
  | x :: xs =>
      match rfindIdx c xs with
      | some i => some (i + 1)
      | none => if x = c then some 0 else none

/-- Value of a nonempty all-digit ASCII string, else `none`. -/
def digitsVal (l : List Char) : Option Nat :=
  if l ≠ [] ∧ l.all Char.isDigit then
    some (l.foldl (fun a c => 10 * a + (c.toNat - 48)) 0)
  else none

/-- Sign handling of Python `int(s)` after stripping. -/
def pyIntCore : List Char → Option Int
  | [] => none
  | c :: cs =>
      if c = '-' then (digitsVal cs).map (fun v => -(v : Int))
      else if c = '+' then (digitsVal cs).map (fun v => (v : Int))
      else (digitsVal (c :: cs)).map (fun v => (v : Int))

/-- Model of Python `int(s)` on a string (ASCII decimal literals);
`none` models `ValueError`. -/
def pyInt (l : List Char) : Option Int := pyIntCore (pyStrip l)

/-- Python `str.upper()` (ASCII). -/
def upperChars (l : List Char) : List Char := l.map Char.toUpper

/-- Python `str.lower()` (ASCII). -/
def lowerChars (l : List Char) : List Char := l.map Char.toLower

/-- Python `str.startswith(tag)`. -/
def startsWithChars (l tag : List Char) : Bool := l.take tag.length == tag

/-- Strict lexicographic order on char lists (Python `<` on strings). -/
def chLt : List Char → List Char → Bool
  | [], [] => false
  | [], _ :: _ => true
  | _ :: _, [] => false
  | a :: as, b :: bs => if a < b then true else if b < a then false else chLt as bs

/-- One parsed player record: the dict
`{"name": ..., "rating": ..., "is_gk": ...}` built by `get_player_info`. -/
structure Player where
  name : List Char
  rating : Int
  is_gk : Bool
deriving DecidableEq, Repr, Inhabited

/-- The goalkeeper tag `"GK-"` (line 61). -/
def gkTag : List Char := ['G', 'K', '-']

/-- The goalkeeper tag `"PO-"` (line 61). -/
def poTag : List Char := ['P', 'O', '-']

/-- The text between the last `'('` and the last `')'` of an entry
(`player_str[start_paren + 1:end_paren]`, lines 51-53). -/
def bracketContent (player_str : List Char) : List Char :=
  let start_paren := (rfindIdx '(' player_str).getD 0
  let end_paren := (rfindIdx ')' player_str).getD 0
  (player_str.drop (start_paren + 1)).take (end_paren - (start_paren + 1))

/-- The rating/name split for one stripped entry (lines 44-58): default
rating 3 and the whole entry as name, overridden when the entry contains
both parentheses and the bracketed text parses as an integer. -/
def splitRating (player_str : List Char) : Int × List Char :=
  if player_str.contains '(' ∧ player_str.contains ')' then
    match pyInt (bracketContent player_str) with
    | some r =>
        (r, pyStrip (player_str.take ((rfindIdx '(' player_str).getD 0)))
    | none => (3, player_str)
  else (3, player_str)

/-- One player dict from one stripped nonempty entry (lines 44-67):
rating clamped by `max(1, min(5, rating))`, goalkeeper flag from a
case-insensitive `GK-`/`PO-` test on the (unstripped) name. -/
def mkPlayer (player_str : List Char) : Player :=
  let rn := splitRating player_str
  { name := rn.2
    rating := max 1 (min 5 rn.1)
    is_gk := startsWithChars (upperChars rn.2) gkTag ||
             startsWithChars (upperChars rn.2) poTag }

/-- `get_player_info` (lines 28-69): split on commas, strip, drop blank
entries, parse each remaining entry. -/
def get_player_info (player_input : List Char) : List Player :=
  if player_input = [] then []
  else
    ((splitOnComma player_input).map pyStrip).filterMap
      (fun player_str => if player_str = [] then none else some (mkPlayer player_str))

/-- A palette entry: `(emoji, color name)`. -/
abbrev Color := String × String

/-- The fixed 8-entry palette `TEAM_COLORS` (lines 7-10). -/
def TEAM_COLORS : List Color :=
  [("🔴", "Red"), ("🔵", "Blue"), ("🟢", "Green"), ("🟡", "Yellow"),
   ("🟠", "Orange"), ("🟣", "Purple"), ("⚫", "Black"), ("⚪", "White")]

/-- Replace the element at index `i` (no change when out of range). -/
def listModify (f : α → α) : Nat → List α → List α
  | _, [] => []
  | 0, x :: xs => f x :: xs
  | n + 1, x :: xs => x :: listModify f n xs

/-- Descending-by-rating comparison used by
`sorted(..., key=lambda x: x["rating"], reverse=True)`: `a` strictly
precedes `b` when its rating is larger (ties keep input order). -/
def ratedGt (a b : Player) : Bool := decide (b.rating < a.rating)

/-- Case-insensitive by-name comparison used by
`team.sort(key=lambda x: x["name"].lower())`. -/
def nameLt (a b : Player) : Bool := chLt (lowerChars a.name) (lowerChars b.name)

/-- Insert `x` before the first element it strictly precedes (after all
elements that tie with it). -/
def insertOrd (lt : α → α → Bool) (x : α) : List α → List α
  | [] => [x]
  | y :: ys => if lt x y then x :: y :: ys else y :: insertOrd lt x ys

/-- Stable sort (model of Python's stable `sorted`/`list.sort`):
elements whose keys tie keep their input order. -/
def stableSort (lt : α → α → Bool) (l : List α) : List α :=
  l.foldl (fun acc x => insertOrd lt x acc) []

/-- The two loops of lines 89-100: walk `group` with running index `i`,
appending each player to team `i % num_teams` and adding its rating to
that team's skill total. -/
def assignLoop (num_teams : Nat) :
    List Player → Nat → List (List Player) → List Int →
    List (List Player) × List Int
  | [], _, teams, skills => (teams, skills)
  | p :: ps, i, teams, skills =>
      assignLoop num_teams ps (i + 1)
        (listModify (fun t => t ++ [p]) (i % num_teams) teams)
        (listModify (fun s => s + p.rating) (i % num_teams) skills)

/-- The sorted goalkeeper group (line 77). -/
def sortedGks (players : List Player) : List Player :=
  stableSort ratedGt (players.filter (fun p => p.is_gk))

/-- The sorted field-player group (line 78). -/
def sortedFps (players : List Player) : List Player :=
  stableSort ratedGt (players.filter (fun p => !p.is_gk))

/-- Teams and skill totals after both assignment loops (lines 85-100),
before the final per-team name sort. -/
def assembled (players : List Player) (num_teams : Nat) :
    List (List Player) × List Int :=
  let r1 := assignLoop num_teams (sortedGks players) 0
      (List.replicate num_teams []) (List.replicate num_teams 0)
  assignLoop num_teams (sortedFps players) 0 r1.1 r1.2

/-- `make_teams` (lines 71-106).  `colors` is the post-shuffle palette
(always a permutation of `TEAM_COLORS` in the program).  `none` models the
`ZeroDivisionError` raised by `i % num_teams` when `num_teams = 0` and a
loop body runs, or by `colors[i % len(colors)]` when the palette is empty
and `num_teams > 0`; otherwise the result is
`(teams, team_info, team_skills)` with each team finally sorted by
lower-cased name. -/
def make_teams (players : List Player) (num_teams : Nat) (colors : List Color) :
    Option (List (List Player) × List Color × List Int) :=
  if (num_teams = 0 ∧ players ≠ []) ∨ (colors = [] ∧ num_teams ≠ 0) then none
  else
    some ((assembled players num_teams).1.map (stableSort nameLt),
      (List.range num_teams).map (fun i => colors.getD (i % colors.length) default),
      (assembled players num_teams).2)

/-- The average-skill expression of `display_teams` (line 129) and
`generate_pdf` (line 174): `total_skill / len(team) if team else 0`,
real division modelled over `Rat`. -/
def avg_skill (total_skill : Int) (team : List Player) : Rat :=
  if team ≠ [] then (total_skill : Rat) / (team.length : Rat) else 0

/-- Concatenation of the team lists (used to state conservation). -/
def flat : List (List α) → List α
  | [] => []
  | t :: ts => t ++ flat ts

/-- Number of indices `i < m` with `(s + i) % n = j`: how many members a
round-robin walk starting at running index `s` over a group of size `m`
hands to team `j`. -/
def rrCount (n j : Nat) : Nat → Nat → Nat
  | _, 0 => 0
  | s, m + 1 => (if s % n = j then 1 else 0) + rrCount n j (s + 1) m

/-- The members a round-robin walk starting at running index `s` hands to
team `j`, in order. -/
def picked (n j : Nat) : Nat → List Player → List Player
  | _, [] => []
  | s, p :: ps => (if s % n = j then [p] else []) ++ picked n j (s + 1) ps

/-- Sum of the ratings of a list of players. -/
def sumRatings : List Player → Int
  | [] => 0
  | p :: ps => p.rating + sumRatings ps

/-! ### Generic list lemmas -/

theorem insertOrd_perm (lt : α → α → Bool) (x : α) (l : List α) :
    List.Perm (insertOrd lt x l) (x :: l) := by
  induction l with
  | nil => simp [insertOrd]
  | cons y ys ih =>
      simp only [insertOrd]
      split
      · exact List.Perm.refl _
      · exact (ih.cons y).trans (List.Perm.swap x y ys)

theorem foldl_insertOrd_perm (lt : α → α → Bool) (l : List α) :
    ∀ acc : List α, List.Perm (l.foldl (fun a x => insertOrd lt x a) acc) (acc ++ l) := by
  induction l with
  | nil => intro acc; simp
  | cons x xs ih =>
      intro acc
      simp only [List.foldl_cons]
      exact (ih _).trans (((insertOrd_perm lt x acc).append_right xs).trans
        List.perm_middle.symm)

theorem stableSort_perm (lt : α → α → Bool) (l : List α) :
    List.Perm (stableSort lt l) l := by
  simpa [stableSort] using foldl_insertOrd_perm lt l []

theorem length_listModify (f : α → α) (i : Nat) (l : List α) :
    (listModify f i l).length = l.length := by
  induction l generalizing i with
  | nil => cases i <;> rfl
  | cons x xs ih => cases i <;> simp [listModify, ih]

theorem getD_listModify_self (f : α → α) (i : Nat) (l : List α) (d : α)
    (h : i < l.length) :
    (listModify f i l).getD i d = f (l.getD i d) := by
  induction l generalizing i with
  | nil => simp at h
  | cons x xs ih =>
      cases i with
      | zero => rfl
      | succ m => simpa [listModify] using ih m (by simpa using h)

theorem getD_listModify_ne (f : α → α) (i j : Nat) (l : List α) (d : α)
    (h : i ≠ j) :
    (listModify f i l).getD j d = l.getD j d := by
  induction l generalizing i j with
  | nil => cases i <;> rfl
  | cons x xs ih =>
      cases i with
      | zero =>
          cases j with
          | zero => exact absurd rfl h
          | succ m => simp [listModify]
      | succ m =>
          cases j with
          | zero => simp [listModify]
          | succ i' => simpa [listModify] using ih m i' (by omega)

theorem getD_map (f : α → β) (l : List α) (j : Nat) (d : β) (d' : α)
    (h : j < l.length) :
    (l.map f).getD j d = f (l.getD j d') := by
  induction l generalizing j with
  | nil => simp at h
  | cons x xs ih =>
      cases j with
      | zero => rfl
      | succ m => simpa using ih m (by simpa using h)

theorem getD_replicate (a d : α) (n j : Nat) (h : j < n) :
    (List.replicate n a).getD j d = a := by
  induction n generalizing j with
  | zero => omega
  | succ m ih =>
      cases j with
      | zero => rfl
      | succ i => simpa [List.replicate] using ih i (by omega)

theorem length_flat (L : List (List α)) :
    (flat L).length = (L.map List.length).sum := by
  induction L with
  | nil => rfl
  | cons t ts ih => simp [flat, ih]

theorem flat_replicate_nil (n : Nat) :
    flat (List.replicate n ([] : List α)) = [] := by
  induction n with
  | zero => rfl
  | succ m ih => simpa [flat] using ih

theorem flat_listModify_perm (x : α) (i : Nat) (L : List (List α))
    (h : i < L.length) :
    List.Perm (flat (listModify (fun t => t ++ [x]) i L)) (x :: flat L) := by
  induction L generalizing i with
  | nil => simp at h
  | cons t ts ih =>
      cases i with
      | zero =>
          simp only [listModify, flat]
          rw [List.append_assoc]
          exact List.perm_middle
      | succ m =>
          simp only [listModify, flat]
          exact ((ih m (by simpa using h)).append_left t).trans List.perm_middle

theorem flat_map_stableSort_perm (lt : α → α → Bool) (L : List (List α)) :
    List.Perm (flat (L.map (stableSort lt))) (flat L) := by
  induction L with
  | nil => exact List.Perm.refl _
  | cons t ts ih => simpa [flat] using (stableSort_perm lt t).append ih

/-! ### Lemmas about the assignment loops -/

theorem assignLoop_teams_length (n : Nat) (g : List Player) :
    ∀ (s : Nat) (teams : List (List Player)) (skills : List Int),
      (assignLoop n g s teams skills).1.length = teams.length := by
  induction g with
  | nil => intro s teams skills; rfl
  | cons p ps ih =>
      intro s teams skills
      simp only [assignLoop]
      rw [ih, length_listModify]

theorem assignLoop_skills_length (n : Nat) (g : List Player) :
    ∀ (s : Nat) (teams : List (List Player)) (skills : List Int),
      (assignLoop n g s teams skills).2.length = skills.length := by
  induction g with
  | nil => intro s teams skills; rfl
  | cons p ps ih =>
      intro s teams skills
      simp only [assignLoop]
      rw [ih, length_listModify]

theorem assignLoop_flat_perm (n : Nat) (hn : 0 < n) (g : List Player) :
    ∀ (s : Nat) (teams : List (List Player)) (skills : List Int),
      teams.length = n →
      List.Perm (flat (assignLoop n g s teams skills).1) (flat teams ++ g) := by
  induction g with
  | nil => intro s teams skills ht; simp [assignLoop]
  | cons p ps ih =>
      intro s teams skills ht
      simp only [assignLoop]
      have hlen : (listModify (fun t => t ++ [p]) (s % n) teams).length = n := by
        rw [length_listModify]; exact ht
      have h1 := ih (s + 1) _ (listModify (fun sk => sk + p.rating) (s % n) skills) hlen
      have h2 : List.Perm (flat (listModify (fun t => t ++ [p]) (s % n) teams))
          (p :: flat teams) :=
        flat_listModify_perm p _ teams (by rw [ht]; exact Nat.mod_lt s hn)
      exact h1.trans ((h2.append_right ps).trans List.perm_middle.symm)

theorem assignLoop_teams_getD (n : Nat) (hn : 0 < n) (g : List Player) :
    ∀ (s : Nat) (teams : List (List Player)) (skills : List Int) (j : Nat),
      teams.length = n → j < n →
      (assignLoop n g s teams skills).1.getD j [] =
        teams.getD j [] ++ picked n j s g := by
  induction g with
  | nil => intro s teams skills j ht hj; simp [assignLoop, picked]
  | cons p ps ih =>
      intro s teams skills j ht hj
      simp only [assignLoop]
      have hlen : (listModify (fun t => t ++ [p]) (s % n) teams).length = n := by
        rw [length_listModify]; exact ht
      rw [ih (s + 1) _ _ j hlen hj]
      by_cases hc : s % n = j
      · rw [hc, getD_listModify_self _ _ _ _ (by rw [ht]; exact hj)]
        simp [picked, hc, List.append_assoc]
      · rw [getD_listModify_ne _ _ _ _ _ hc]
        simp [picked, hc]

theorem assignLoop_skills_getD (n : Nat) (hn : 0 < n) (g : List Player) :
    ∀ (s : Nat) (teams : List (List Player)) (skills : List Int) (j : Nat),
      skills.length = n → j < n →
      (assignLoop n g s teams skills).2.getD j 0 =
        skills.getD j 0 + sumRatings (picked n j s g) := by
  induction g with
  | nil => intro s teams skills j hs hj; simp [assignLoop, picked, sumRatings]
  | cons p ps ih =>
      intro s teams skills j hs hj
      simp only [assignLoop]
      have hlen : (listModify (fun sk => sk + p.rating) (s % n) skills).length = n := by
        rw [length_listModify]; exact hs
      rw [ih (s + 1) _ _ j hlen hj]
      by_cases hc : s % n = j
      · rw [hc, getD_listModify_self _ _ _ _ (by rw [hs]; exact hj)]
        have hpick : picked n j s (p :: ps) = p :: picked n j (s + 1) ps := by
          simp [picked, hc]
        rw [hpick]
        simp only [sumRatings]
        ring
      · rw [getD_listModify_ne _ _ _ _ _ hc]
        simp [picked, hc]

theorem picked_length (n j : Nat) (g : List Player) :
    ∀ s, (picked n j s g).length = rrCount n j s g.length := by
  induction g with
  | nil => intro s; rfl
  | cons p ps ih =>
      intro s
      by_cases hc : s % n = j <;> simp [picked, rrCount, hc, ih] <;> omega

theorem picked_subset (n j : Nat) (g : List Player) :
    ∀ s q, q ∈ picked n j s g → q ∈ g := by
  induction g with
  | nil => intro s q h; simp [picked] at h
  | cons p ps ih =>
      intro s q h
      simp only [picked, List.mem_append] at h
      rcases h with h | h
      · by_cases hc : s % n = j
        · rw [if_pos hc] at h
          have hq : q = p := by simpa using h
          rw [hq]
          exact List.mem_cons_self p ps
        · rw [if_neg hc] at h
          simp at h
      · exact List.mem_cons_of_mem p (ih (s + 1) q h)

theorem sumRatings_const (g : Int) (l : List Player) (h : ∀ p ∈ l, p.rating = g) :
    sumRatings l = g * (l.length : Int) := by
  induction l with
  | nil => simp [sumRatings]
  | cons p ps ih =>
      have hp : p.rating = g := h p (List.mem_cons_self p ps)
      have hps := ih (fun q hq => h q (List.mem_cons_of_mem p hq))
      simp only [sumRatings, hp, hps, List.length_cons]
      push_cast
      ring

/-! ### Round-robin counting -/

theorem rrCount_step (n j : Nat) (m : Nat) :
    ∀ s, rrCount n j s (m + 1) =
      rrCount n j s m + (if (s + m) % n = j then 1 else 0) := by
  induction m with
  | zero => intro s; simp [rrCount]
  | succ m ih =>
      intro s
      have h1 : rrCount n j s (m + 1 + 1) =
          (if s % n = j then 1 else 0) + rrCount n j (s + 1) (m + 1) := rfl
      have h2 : rrCount n j s (m + 1) =
          (if s % n = j then 1 else 0) + rrCount n j (s + 1) m := rfl
      rw [h1, ih (s + 1), h2, show s + 1 + m = s + (m + 1) from by omega]
      omega

theorem rrCount_closed (n j : Nat) (hn : 0 < n) (hj : j < n) :
    ∀ m, rrCount n j 0 m = m / n + (if j < m % n then 1 else 0) := by
  intro m
  induction m with
  | zero => simp [rrCount]
  | succ m ih =>
      rw [rrCount_step n j m 0, ih, Nat.zero_add]
      have hq : m % n < n := Nat.mod_lt m hn
      rcases Nat.lt_or_ge (m % n + 1) n with hlt | hge
      · have e : m + 1 = m % n + 1 + n * (m / n) := by
          have := Nat.div_add_mod m n; omega
        have h1 : (m + 1) % n = m % n + 1 := by
          rw [e, Nat.add_mul_mod_self_left, Nat.mod_eq_of_lt hlt]
        have h2 : (m + 1) / n = m / n := by
          rw [e, Nat.add_mul_div_left _ _ hn, Nat.div_eq_of_lt hlt, Nat.zero_add]
        rw [h1, h2]
        split_ifs <;> omega
      · have e : m + 1 = n * (m / n + 1) := by
          have := Nat.div_add_mod m n
          rw [Nat.mul_succ]; omega
        have h1 : (m + 1) % n = 0 := by rw [e]; exact Nat.mul_mod_right n _
        have h2 : (m + 1) / n = m / n + 1 := by
          rw [e]; exact Nat.mul_div_cancel_left _ hn
        rw [h1, h2]
        split_ifs <;> omega

theorem rrCount_balanced (n j k : Nat) (hn : 0 < n) (hj : j < n) (hk : k < n)
    (m : Nat) : rrCount n j 0 m ≤ rrCount n k 0 m + 1 := by
  rw [rrCount_closed n j hn hj m, rrCount_closed n k hn hk m]
  have hq : m % n < n := Nat.mod_lt m hn
  split_ifs <;> omega

/-! ### Lemmas about `assembled` and `make_teams` -/

theorem assembled_teams_length (players : List Player) (n : Nat) :
    (assembled players n).1.length = n := by
  simp only [assembled]
  rw [assignLoop_teams_length, assignLoop_teams_length, List.length_replicate]

theorem assembled_skills_length (players : List Player) (n : Nat) :
    (assembled players n).2.length = n := by
  simp only [assembled]
  rw [assignLoop_skills_length, assignLoop_skills_length, List.length_replicate]

theorem assembled_teams_getD (players : List Player) (n : Nat) (hn : 0 < n)
    (j : Nat) (hj : j < n) :
    (assembled players n).1.getD j [] =
      picked n j 0 (sortedGks players) ++ picked n j 0 (sortedFps players) := by
  simp only [assembled]
  rw [assignLoop_teams_getD n hn _ 0 _ _ j
        (by rw [assignLoop_teams_length, List.length_replicate]) hj,
      assignLoop_teams_getD n hn _ 0 _ _ j (by rw [List.length_replicate]) hj,
      getD_replicate _ _ _ _ hj]
  simp

theorem assembled_skills_getD (players : List Player) (n : Nat) (hn : 0 < n)
    (j : Nat) (hj : j < n) :
    (assembled players n).2.getD j 0 =
      sumRatings (picked n j 0 (sortedGks players)) +
        sumRatings (picked n j 0 (sortedFps players)) := by
  simp only [assembled]
  rw [assignLoop_skills_getD n hn _ 0 _ _ j
        (by rw [assignLoop_skills_length, List.length_replicate]) hj,
      assignLoop_skills_getD n hn _ 0 _ _ j (by rw [List.length_replicate]) hj,
      getD_replicate _ _ _ _ hj]
  ring

theorem assembled_flat_perm (players : List Player) (n : Nat) (hn : 0 < n) :
    List.Perm (flat (assembled players n).1)
      (sortedGks players ++ sortedFps players) := by
  simp only [assembled]
  have h1 := assignLoop_flat_perm n hn (sortedFps players) 0
      (assignLoop n (sortedGks players) 0 (List.replicate n []) (List.replicate n 0)).1
      (assignLoop n (sortedGks players) 0 (List.replicate n []) (List.replicate n 0)).2
      (by rw [assignLoop_teams_length, List.length_replicate])
  have h2 := assignLoop_flat_perm n hn (sortedGks players) 0
      (List.replicate n []) (List.replicate n 0) (by rw [List.length_replicate])
  rw [flat_replicate_nil, List.nil_append] at h2
  exact h1.trans (h2.append_right (sortedFps players))

theorem make_teams_eq_some (players : List Player) (n : Nat) (colors : List Color)
    (teams : List (List Player)) (info : List Color) (skills : List Int)
    (h : make_teams players n colors = some (teams, info, skills)) :
    teams = (assembled players n).1.map (stableSort nameLt) ∧
      skills = (assembled players n).2 := by
  rw [make_teams] at h
  split at h
  · exact absurd h (by simp)
  · rw [Option.some.injEq, Prod.mk.injEq, Prod.mk.injEq] at h
    exact ⟨h.1.symm, h.2.2.symm⟩

theorem sortedGks_rating (players : List Player) (g : Int)
    (hgk : ∀ p ∈ players, p.is_gk = true → p.rating = g) :
    ∀ p ∈ sortedGks players, p.rating = g := by
  intro p hp
  have hp' : p ∈ players.filter (fun q => q.is_gk) :=
    ((stableSort_perm ratedGt _).mem_iff).mp hp
  have := List.mem_filter.mp hp'
  exact hgk p this.1 this.2

theorem sortedFps_rating (players : List Player) (r : Int)
    (hfp : ∀ p ∈ players, p.is_gk = false → p.rating = r) :
    ∀ p ∈ sortedFps players, p.rating = r := by
  intro p hp
  have hp' : p ∈ players.filter (fun q => !q.is_gk) :=
    ((stableSort_perm ratedGt _).mem_iff).mp hp
  have := List.mem_filter.mp hp'
  exact hfp p this.1 (by simpa using this.2)

theorem sortedGks_flag (players : List Player) :
    ∀ p ∈ sortedGks players, p.is_gk = true := by
  intro p hp
  have hp' : p ∈ players.filter (fun q => q.is_gk) :=
    ((stableSort_perm ratedGt _).mem_iff).mp hp
  exact (List.mem_filter.mp hp').2

theorem sortedFps_flag (players : List Player) :
    ∀ p ∈ sortedFps players, p.is_gk = false := by
  intro p hp
  have hp' : p ∈ players.filter (fun q => !q.is_gk) :=
    ((stableSort_perm ratedGt _).mem_iff).mp hp
  simpa using (List.mem_filter.mp hp').2

/-! ### Lemmas about stripping and the parser -/

theorem dropWhile_head_false (p : α → Bool) (h : α) (t : List α)
    (hh : p h = false) : List.dropWhile p (h :: t) = h :: t := by
  simp [List.dropWhile, hh]

theorem lstrip_idem (l : List Char) :
    lstripChars (lstripChars l) = lstripChars l :=
  List.dropWhile_idempotent pySpace l

theorem rstrip_idem (l : List Char) :
    rstripChars (rstripChars l) = rstripChars l := by
  simp only [rstripChars, List.reverse_reverse]
  rw [List.dropWhile_idempotent]

theorem length_dropWhile_le (p : α → Bool) (l : List α) :
    (l.dropWhile p).length ≤ l.length := by
  induction l with
  | nil => simp
  | cons x xs ih =>
      by_cases hp : p x
      · rw [List.dropWhile_cons, if_pos hp]
        exact le_trans ih (by simp)
      · rw [List.dropWhile_cons, if_neg hp]

theorem lstrip_fixed_head (h : Char) (t : List Char)
    (hfix : lstripChars (h :: t) = h :: t) : pySpace h = false := by
  cases hph : pySpace h
  · rfl
  · exfalso
    rw [lstripChars, List.dropWhile_cons] at hfix
    rw [hph, if_pos rfl] at hfix
    have hlen := congrArg List.length hfix
    simp only [List.length_cons] at hlen
    have hle := length_dropWhile_le pySpace t
    omega

theorem lstrip_rstrip_fixed (A : List Char) (hA : lstripChars A = A) :
    lstripChars (rstripChars A) = rstripChars A := by
  cases A with
  | nil => rfl
  | cons h t =>
      have hph : pySpace h = false := lstrip_fixed_head h t hA
      have hr : rstripChars (h :: t) =
          (List.dropWhile pySpace (t.reverse ++ [h])).reverse := by
        rw [rstripChars, List.reverse_cons]
      rw [hr, List.dropWhile_append]
      by_cases he : (List.dropWhile pySpace t.reverse).isEmpty
      · rw [if_pos he, dropWhile_head_false pySpace h [] hph]
        exact dropWhile_head_false pySpace h [] hph
      · rw [if_neg he, List.reverse_append]
        simp only [List.reverse_cons, List.reverse_nil, List.nil_append,
          List.singleton_append]
        exact dropWhile_head_false pySpace h _ hph

theorem pyStrip_idem (l : List Char) : pyStrip (pyStrip l) = pyStrip l := by
  have h1 : pyStrip l = rstripChars (lstripChars l) := rfl
  rw [h1, pyStrip, lstrip_rstrip_fixed (lstripChars l) (lstrip_idem l), rstrip_idem]

theorem splitRating_name_stripped (e : List Char) (he : pyStrip e = e) :
    pyStrip (splitRating e).2 = (splitRating e).2 := by
  rw [splitRating]
  split
  · split
    · exact pyStrip_idem _
    · exact he
  · exact he

theorem length_filterMap_entries (l : List (List Char)) :
    (l.filterMap
        (fun player_str =>
          if player_str = [] then none else some (mkPlayer player_str))).length =
      l.countP (fun e => !e.isEmpty) := by
  induction l with
  | nil => rfl
  | cons e es ih =>
      by_cases he : e = []
      · subst he
        simp [List.filterMap_cons, ih, List.countP_cons]
      · simp [List.filterMap_cons, he, ih, List.countP_cons, List.isEmpty_iff]

/-! ### Claims -/

/-- C1: for every sequence of players and every `team_count ≥ 2`, the teams
returned by `make_teams` partition the input: the sum of the team sizes
equals the number of input players, and the multiset of player records
(names with ratings and goalkeeper flags) in the union of the teams is a
permutation of the input list — no player is duplicated or dropped. -/
theorem C1_conservation (players : List Player) (n : Nat) (colors : List Color)
    (teams : List (List Player)) (info : List Color) (skills : List Int)
    (hn : 2 ≤ n) (h : make_teams players n colors = some (teams, info, skills)) :
    (teams.map List.length).sum = players.length ∧
      List.Perm (flat teams) players := by
  have hn0 : 0 < n := by omega
  obtain ⟨ht, -⟩ := make_teams_eq_some players n colors teams info skills h
  subst ht
  have hperm : List.Perm (flat ((assembled players n).1.map (stableSort nameLt)))
      players := by
    refine ((flat_map_stableSort_perm nameLt _).trans
      ((assembled_flat_perm players n hn0).trans ?_))
    refine ((stableSort_perm ratedGt _).append (stableSort_perm ratedGt _)).trans ?_
    exact List.filter_append_perm (fun p => p.is_gk) players
  exact ⟨by rw [← length_flat]; exact hperm.length_eq, hperm⟩

/-- Witness for C1 at a concrete input: two field players and two teams. -/
theorem C1_conservation_witness :
    ((([[Player.mk ['A'] 3 false], [Player.mk ['B'] 3 false]] :
          List (List Player)).map List.length).sum =
        ([Player.mk ['A'] 3 false, Player.mk ['B'] 3 false] : List Player).length ∧
      List.Perm (flat [[Player.mk ['A'] 3 false], [Player.mk ['B'] 3 false]])
        [Player.mk ['A'] 3 false, Player.mk ['B'] 3 false]) :=
  C1_conservation [Player.mk ['A'] 3 false, Player.mk ['B'] 3 false] 2 TEAM_COLORS
    [[Player.mk ['A'] 3 false], [Player.mk ['B'] 3 false]]
    [("🔴", "Red"), ("🔵", "Blue")] [3, 3] (by omega) (by decide)

/-- C2: on `"Joe (5), Jane (3), GK-Bob (4), Frank (2)"` the parser yields
exactly the four players Joe:5/field, Jane:3/field, Bob:4/goalkeeper with
stored name `"GK-Bob"`, Frank:2/field, and `make_teams` with two teams puts
exactly Frank, GK-Bob and Joe in team 0 (skill 11) and Jane in team 1
(skill 3). -/
theorem C2_scenario :
    get_player_info "Joe (5), Jane (3), GK-Bob (4), Frank (2)".data =
      [⟨"Joe".data, 5, false⟩, ⟨"Jane".data, 3, false⟩,
       ⟨"GK-Bob".data, 4, true⟩, ⟨"Frank".data, 2, false⟩] ∧
    (make_teams
        [⟨"Joe".data, 5, false⟩, ⟨"Jane".data, 3, false⟩,
         ⟨"GK-Bob".data, 4, true⟩, ⟨"Frank".data, 2, false⟩] 2 TEAM_COLORS).map
        (fun r => (r.1, r.2.2)) =
      some ([[⟨"Frank".data, 2, false⟩, ⟨"GK-Bob".data, 4, true⟩,
              ⟨"Joe".data, 5, false⟩],
             [⟨"Jane".data, 3, false⟩]], [11, 3]) := by
  exact ⟨by decide, by decide⟩

/-- C3: every parsed player's rating lies in `[1, 5]` whatever number is
written in the input — `"Joe (99)"` clamps to 5, `"Joe (-3)"` clamps to 1,
and an entry with no parseable rating gets the default 3. -/
theorem C3_rating_clamp :
    (∀ (input : List Char), ∀ p ∈ get_player_info input,
      1 ≤ p.rating ∧ p.rating ≤ 5) ∧
    get_player_info "Joe (99)".data = [⟨"Joe".data, 5, false⟩] ∧
    get_player_info "Joe (-3)".data = [⟨"Joe".data, 1, false⟩] ∧
    get_player_info "Joe ()".data = [⟨"Joe ()".data, 3, false⟩] := by
  refine ⟨?_, by decide, by decide, by decide⟩
  intro input p hp
  rw [get_player_info] at hp
  split at hp
  · simp at hp
  · rw [List.mem_filterMap] at hp
    obtain ⟨e, -, hme⟩ := hp
    split at hme
    · simp at hme
    · rw [Option.some.injEq] at hme
      subst hme
      have hr : (mkPlayer e).rating = max 1 (min 5 (splitRating e).1) := rfl
      rw [hr]
      constructor
      · exact le_max_left 1 _
      · exact max_le (by norm_num) (min_le_left 5 _)

/-- Witness for C3 at a concrete parsed player. -/
theorem C3_rating_clamp_witness :
    1 ≤ (Player.mk "Joe".data 5 false).rating ∧
      (Player.mk "Joe".data 5 false).rating ≤ 5 :=
  C3_rating_clamp.1 "Joe (5)".data (Player.mk "Joe".data 5 false) (by decide)

/-- C4: for every entry containing both `'('` and `')'` whose bracketed
text (between the last `'('` and the last `')'`) does not parse as an
integer, the parser yields rating 3 and keeps the entire entry text as the
name; in particular `"Weird(abc)"` yields rating 3 and name
`"Weird(abc)"`.  (The parser is a total function of its input — the
embedding returns a value for every string, matching "never raises".) -/
theorem C4_fallback :
    (∀ e : List Char, e.contains '(' = true → e.contains ')' = true →
      pyInt (bracketContent e) = none →
      (mkPlayer e).rating = 3 ∧ (mkPlayer e).name = e) ∧
    get_player_info "Weird(abc)".data = [⟨"Weird(abc)".data, 3, false⟩] := by
  refine ⟨?_, by decide⟩
  intro e h1 h2 h3
  have hsplit : splitRating e = (3, e) := by
    rw [splitRating, if_pos ⟨h1, h2⟩]
    split
    · rename_i r heq
      rw [h3] at heq
      exact absurd heq (by simp)
    · rfl
  have hrat : (mkPlayer e).rating = max 1 (min 5 (splitRating e).1) := rfl
  have hnm : (mkPlayer e).name = (splitRating e).2 := rfl
  rw [hrat, hnm, hsplit]
  exact ⟨by norm_num, rfl⟩

/-- Witness for C4 at the concrete entry `"Weird(abc)"`. -/
theorem C4_fallback_witness :
    (mkPlayer "Weird(abc)".data).rating = 3 ∧
      (mkPlayer "Weird(abc)".data).name = "Weird(abc)".data :=
  C4_fallback.1 "Weird(abc)".data (by decide) (by decide) (by decide)

/-- C5 counterexample: `"GK-Bob (4)"` parses to a goalkeeper whose stored
name is `"GK-Bob"` — the `GK-` prefix is detected but NOT stripped, so a
stored player name can begin with the prefix, contradicting the claim. -/
theorem C5_counterexample :
    get_player_info "GK-Bob (4)".data = [⟨"GK-Bob".data, 4, true⟩] ∧
    startsWithChars (upperChars "GK-Bob".data) gkTag = true := by
  exact ⟨by decide, by decide⟩

/-- C5 (amended): for every entry whose name (after the rating/name split)
begins case-insensitively with `GK-` or `PO-`, the parser sets
`is_goalkeeper` to true but keeps the stored name unchanged, prefix
included. -/
theorem C5_goalkeeper_flag (e : List Char)
    (h : startsWithChars (upperChars (splitRating e).2) gkTag = true ∨
      startsWithChars (upperChars (splitRating e).2) poTag = true) :
    (mkPlayer e).is_gk = true ∧ (mkPlayer e).name = (splitRating e).2 := by
  constructor
  · have hgk : (mkPlayer e).is_gk =
        (startsWithChars (upperChars (splitRating e).2) gkTag ||
          startsWithChars (upperChars (splitRating e).2) poTag) := rfl
    rw [hgk]
    rcases h with h | h <;> simp [h]
  · rfl

/-- Witness for C5's amended claim at the concrete entry `"GK-Bob (4)"`. -/
theorem C5_goalkeeper_flag_witness :
    (mkPlayer "GK-Bob (4)".data).is_gk = true ∧
      (mkPlayer "GK-Bob (4)".data).name = (splitRating "GK-Bob (4)".data).2 :=
  C5_goalkeeper_flag "GK-Bob (4)".data (Or.inl (by decide))

/-- C6 counterexample: with one player and `team_count = 0` the balancer
does fail — `i % num_teams` raises `ZeroDivisionError` (modelled as
`none`), contradicting "never fails for any non-negative team_count". -/
theorem C6_counterexample :
    make_teams [Player.mk ['A'] 3 false] 0 TEAM_COLORS = none := by decide

/-- C6 (amended): for every player sequence and every `team_count ≥ 1`
(with the program's non-empty color palette), `make_teams` succeeds and
returns well-formed output: team, color and skill lists each of length
`team_count`. -/
theorem C6_no_failure (players : List Player) (n : Nat) (colors : List Color)
    (hn : 1 ≤ n) (hc : colors ≠ []) :
    ∃ teams info skills,
      make_teams players n colors = some (teams, info, skills) ∧
      teams.length = n ∧ info.length = n ∧ skills.length = n := by
  have hcond : ¬ ((n = 0 ∧ players ≠ []) ∨ (colors = [] ∧ n ≠ 0)) := by
    rintro (⟨h0, -⟩ | ⟨h0, -⟩)
    · omega
    · exact hc h0
  refine ⟨(assembled players n).1.map (stableSort nameLt),
      (List.range n).map (fun i => colors.getD (i % colors.length) default),
      (assembled players n).2, ?_, ?_, ?_, ?_⟩
  · rw [make_teams, if_neg hcond]
  · rw [List.length_map, assembled_teams_length]
  · rw [List.length_map, List.length_range]
  · exact assembled_skills_length players n

/-- Witness for C6's amended claim: one team, no players. -/
theorem C6_no_failure_witness :
    ∃ teams info skills,
      make_teams [] 1 TEAM_COLORS = some (teams, info, skills) ∧
      teams.length = 1 ∧ info.length = 1 ∧ skills.length = 1 :=
  C6_no_failure [] 1 TEAM_COLORS (by omega) (by decide)

/-- C7 counterexample: the entry `"(5)"` is not blank, yet the parser
produces one player whose stored name is empty (the text before the last
`'('` is empty and the rating parses), contradicting "no player with an
empty name is ever produced". -/
theorem C7_counterexample :
    (get_player_info "(5)".data).map Player.name = [[]] ∧
      (get_player_info "(5)".data).length = 1 := by
  exact ⟨by decide, by decide⟩

/-- C7 (amended): blank entries are dropped and not counted — the number
of parsed players equals the number of comma-separated entries that are
nonempty after trimming — and every stored name is trimmed of surrounding
whitespace (stripping it again changes nothing); but a stored name may be
empty when the entry text before the last `'('` is blank while the
bracketed rating parses (e.g. `"(5)"`). -/
theorem C7_names :
    (∀ input : List Char,
      (get_player_info input).length =
        ((splitOnComma input).map pyStrip).countP (fun e => !e.isEmpty)) ∧
    (∀ (input : List Char), ∀ p ∈ get_player_info input,
      pyStrip p.name = p.name) := by
  constructor
  · intro input
    rw [get_player_info]
    split
    · rename_i hin
      subst hin
      decide
    · exact length_filterMap_entries _
  · intro input p hp
    rw [get_player_info] at hp
    split at hp
    · simp at hp
    · rw [List.mem_filterMap] at hp
      obtain ⟨e, he, hme⟩ := hp
      rw [List.mem_map] at he
      obtain ⟨raw, -, hraw⟩ := he
      split at hme
      · simp at hme
      · rw [Option.some.injEq] at hme
        subst hme
        have hname : (mkPlayer e).name = (splitRating e).2 := rfl
        rw [hname]
        exact splitRating_name_stripped e (by rw [← hraw]; exact pyStrip_idem raw)

/-- Witness for C7's amended claim at a concrete input with blanks. -/
theorem C7_names_witness :
    (get_player_info " Joe (5) ,, ".data).length =
      ((splitOnComma " Joe (5) ,, ".data).map pyStrip).countP
        (fun e => !e.isEmpty) :=
  C7_names.1 " Joe (5) ,, ".data

/-- C8 counterexample: all field-player ratings are equal (both 5) and
`team_count = 2`, yet the skill totals are 10 and 6 — a difference of 4,
greater than the claimed bound 2.  (Goalkeepers rated 5 and 1 each add a
full rating, not "1", per round-robin slot.) -/
theorem C8_counterexample :
    (([Player.mk ['A'] 5 true, Player.mk ['B'] 1 true,
        Player.mk ['C'] 5 false, Player.mk ['D'] 5 false] :
        List Player).filter (fun p => !p.is_gk)).all (fun p => p.rating == 5) =
      true ∧
    (make_teams
        [Player.mk ['A'] 5 true, Player.mk ['B'] 1 true,
         Player.mk ['C'] 5 false, Player.mk ['D'] 5 false] 2 TEAM_COLORS).map
        (fun out => out.2.2) = some [10, 6] ∧
    ¬ ((10 : Int) - 6 ≤ 2) := by
  exact ⟨by decide, by decide, by decide⟩

/-- C8 (amended): when every goalkeeper rating equals `g ≥ 0` and every
field-player rating equals `r ≥ 0`, the difference between any two teams'
skill totals after `make_teams` is at most `g + r` — one goalkeeper-round
slot plus one field-round slot of imbalance, each weighted by its group's
common rating. -/
theorem C8_weighted_balance (players : List Player) (n : Nat) (colors : List Color)
    (g r : Int) (teams : List (List Player)) (info : List Color) (skills : List Int)
    (hn : 2 ≤ n) (hg : 0 ≤ g) (hr : 0 ≤ r)
    (hgk : ∀ p ∈ players, p.is_gk = true → p.rating = g)
    (hfp : ∀ p ∈ players, p.is_gk = false → p.rating = r)
    (h : make_teams players n colors = some (teams, info, skills))
    (j k : Nat) (hj : j < n) (hk : k < n) :
    skills.getD j 0 - skills.getD k 0 ≤ g + r := by
  have hn0 : 0 < n := by omega
  obtain ⟨-, hs⟩ := make_teams_eq_some players n colors teams info skills h
  subst hs
  have hskill : ∀ i, i < n → (assembled players n).2.getD i 0 =
      g * (rrCount n i 0 (sortedGks players).length : Int) +
      r * (rrCount n i 0 (sortedFps players).length : Int) := by
    intro i hi
    rw [assembled_skills_getD players n hn0 i hi,
      sumRatings_const g _
        (fun p hp => sortedGks_rating players g hgk p
          (picked_subset n i (sortedGks players) 0 p hp)),
      sumRatings_const r _
        (fun p hp => sortedFps_rating players r hfp p
          (picked_subset n i (sortedFps players) 0 p hp)),
      picked_length, picked_length]
  rw [hskill j hj, hskill k hk]
  have h1 : ((rrCount n j 0 (sortedGks players).length : Nat) : Int) ≤
      (rrCount n k 0 (sortedGks players).length : Int) + 1 := by
    exact_mod_cast rrCount_balanced n j k hn0 hj hk (sortedGks players).length
  have h2 : ((rrCount n j 0 (sortedFps players).length : Nat) : Int) ≤
      (rrCount n k 0 (sortedFps players).length : Int) + 1 := by
    exact_mod_cast rrCount_balanced n j k hn0 hj hk (sortedFps players).length
  have hga := mul_le_mul_of_nonneg_left h1 hg
  have hrc := mul_le_mul_of_nonneg_left h2 hr
  rw [mul_add, mul_one] at hga hrc
  linarith

/-- Witness for C8's amended claim: one goalkeeper rated 4, one field
player rated 2, two teams. -/
theorem C8_weighted_balance_witness :
    ([6, 0] : List Int).getD 0 0 - ([6, 0] : List Int).getD 1 0 ≤ (4 : Int) + 2 :=
  C8_weighted_balance [Player.mk ['G'] 4 true, Player.mk ['F'] 2 false] 2
    TEAM_COLORS 4 2
    [[Player.mk ['F'] 2 false, Player.mk ['G'] 4 true], []]
    [("🔴", "Red"), ("🔵", "Blue")] [6, 0]
    (by omega) (by decide) (by decide) (by decide) (by decide) (by decide)
    0 1 (by omega) (by omega)

/-- C9: for every team produced by `make_teams`, the average skill shown
by `display_teams`/`generate_pdf` equals `total_skill` divided by the team
size when the team is non-empty, and equals 0 when the team is empty — an
empty team never divides by zero. -/
theorem C9_avg_skill (players : List Player) (n : Nat) (colors : List Color)
    (teams : List (List Player)) (info : List Color) (skills : List Int)
    (h : make_teams players n colors = some (teams, info, skills)) (j : Nat) :
    (teams.getD j [] ≠ [] →
      avg_skill (skills.getD j 0) (teams.getD j []) =
        ((skills.getD j 0 : Int) : Rat) / (((teams.getD j []).length : Nat) : Rat)) ∧
    (teams.getD j [] = [] →
      avg_skill (skills.getD j 0) (teams.getD j []) = 0) := by
  constructor
  · intro hne
    rw [avg_skill, if_pos hne]
  · intro he
    rw [avg_skill, if_neg (fun hcon => hcon he)]

/-- Witness for C9 at a concrete one-team result. -/
theorem C9_avg_skill_witness :
    (([[Player.mk ['A'] 3 false]] : List (List Player)).getD 0 [] ≠ [] →
      avg_skill (([3] : List Int).getD 0 0)
          (([[Player.mk ['A'] 3 false]] : List (List Player)).getD 0 []) =
        ((([3] : List Int).getD 0 0 : Int) : Rat) /
          (((([[Player.mk ['A'] 3 false]] : List (List Player)).getD 0 []).length :
            Nat) : Rat)) ∧
    (([[Player.mk ['A'] 3 false]] : List (List Player)).getD 0 [] = [] →
      avg_skill (([3] : List Int).getD 0 0)
        (([[Player.mk ['A'] 3 false]] : List (List Player)).getD 0 []) = 0) :=
  C9_avg_skill [Player.mk ['A'] 3 false] 1 TEAM_COLORS
    [[Player.mk ['A'] 3 false]] [("🔴", "Red")] [3] (by decide) 0

/-- C10: `make_teams` assigns each role group round-robin, so for any two
teams the number of goalkeepers differs by at most 1, the number of field
players differs by at most 1, and hence the total team sizes differ by at
most 2 (for any `team_count ≥ 1`). -/
theorem C10_round_robin (players : List Player) (n : Nat) (colors : List Color)
    (teams : List (List Player)) (info : List Color) (skills : List Int)
    (hn : 1 ≤ n) (h : make_teams players n colors = some (teams, info, skills))
    (j k : Nat) (hj : j < n) (hk : k < n) :
    (teams.getD j []).countP (fun p => p.is_gk) ≤
      (teams.getD k []).countP (fun p => p.is_gk) + 1 ∧
    (teams.getD j []).countP (fun p => !p.is_gk) ≤
      (teams.getD k []).countP (fun p => !p.is_gk) + 1 ∧
    (teams.getD j []).length ≤ (teams.getD k []).length + 2 := by
  have hn0 : 0 < n := by omega
  obtain ⟨ht, -⟩ := make_teams_eq_some players n colors teams info skills h
  subst ht
  have hteam : ∀ i, i < n →
      ((assembled players n).1.map (stableSort nameLt)).getD i [] =
        stableSort nameLt
          (picked n i 0 (sortedGks players) ++ picked n i 0 (sortedFps players)) := by
    intro i hi
    rw [getD_map (stableSort nameLt) _ i [] []
          (by rw [assembled_teams_length]; exact hi),
        assembled_teams_getD players n hn0 i hi]
  have hgkA : ∀ i, i < n →
      (picked n i 0 (sortedGks players)).countP (fun p => p.is_gk) =
        rrCount n i 0 (sortedGks players).length := by
    intro i hi
    rw [List.countP_eq_length.mpr
        (fun p hp => sortedGks_flag players p
          (picked_subset n i (sortedGks players) 0 p hp)),
      picked_length]
  have hgkB : ∀ i, i < n →
      (picked n i 0 (sortedFps players)).countP (fun p => p.is_gk) = 0 := by
    intro i hi
    exact List.countP_eq_zero.mpr (fun p hp => by
      simp [sortedFps_flag players p (picked_subset n i (sortedFps players) 0 p hp)])
  have hfpA : ∀ i, i < n →
      (picked n i 0 (sortedGks players)).countP (fun p => !p.is_gk) = 0 := by
    intro i hi
    exact List.countP_eq_zero.mpr (fun p hp => by
      simp [sortedGks_flag players p (picked_subset n i (sortedGks players) 0 p hp)])
  have hfpB : ∀ i, i < n →
      (picked n i 0 (sortedFps players)).countP (fun p => !p.is_gk) =
        rrCount n i 0 (sortedFps players).length := by
    intro i hi
    rw [List.countP_eq_length.mpr
        (fun p hp => by
          simp [sortedFps_flag players p
            (picked_subset n i (sortedFps players) 0 p hp)]),
      picked_length]
  have hcnt : ∀ i, i < n → ∀ q : Player → Bool,
      (((assembled players n).1.map (stableSort nameLt)).getD i []).countP q =
        (picked n i 0 (sortedGks players)).countP q +
          (picked n i 0 (sortedFps players)).countP q := by
    intro i hi q
    rw [hteam i hi, (stableSort_perm nameLt _).countP_eq q, List.countP_append]
  have hlen : ∀ i, i < n →
      (((assembled players n).1.map (stableSort nameLt)).getD i []).length =
        rrCount n i 0 (sortedGks players).length +
          rrCount n i 0 (sortedFps players).length := by
    intro i hi
    rw [hteam i hi, (stableSort_perm nameLt _).length_eq, List.length_append,
      picked_length, picked_length]
  have hbg := rrCount_balanced n j k hn0 hj hk (sortedGks players).length
  have hbf := rrCount_balanced n j k hn0 hj hk (sortedFps players).length
  refine ⟨?_, ?_, ?_⟩
  · rw [hcnt j hj _, hcnt k hk _, hgkA j hj, hgkA k hk, hgkB j hj, hgkB k hk]
    omega
  · rw [hcnt j hj _, hcnt k hk _, hfpA j hj, hfpA k hk, hfpB j hj, hfpB k hk]
    omega
  · rw [hlen j hj, hlen k hk]
    omega

/-- Witness for C10 at a concrete three-player, two-team input. -/
theorem C10_round_robin_witness :
    (([[Player.mk ['G'] 3 true, Player.mk ['H'] 3 false],
        [Player.mk ['I'] 3 false]] : List (List Player)).getD 0 []).countP
        (fun p => p.is_gk) ≤
      (([[Player.mk ['G'] 3 true, Player.mk ['H'] 3 false],
        [Player.mk ['I'] 3 false]] : List (List Player)).getD 1 []).countP
        (fun p => p.is_gk) + 1 ∧
    (([[Player.mk ['G'] 3 true, Player.mk ['H'] 3 false],
        [Player.mk ['I'] 3 false]] : List (List Player)).getD 0 []).countP
        (fun p => !p.is_gk) ≤
      (([[Player.mk ['G'] 3 true, Player.mk ['H'] 3 false],
        [Player.mk ['I'] 3 false]] : List (List Player)).getD 1 []).countP
        (fun p => !p.is_gk) + 1 ∧
    (([[Player.mk ['G'] 3 true, Player.mk ['H'] 3 false],
        [Player.mk ['I'] 3 false]] : List (List Player)).getD 0 []).length ≤
      (([[Player.mk ['G'] 3 true, Player.mk ['H'] 3 false],
        [Player.mk ['I'] 3 false]] : List (List Player)).getD 1 []).length + 2 :=
  C10_round_robin
    [Player.mk ['G'] 3 true, Player.mk ['H'] 3 false, Player.mk ['I'] 3 false] 2
    TEAM_COLORS
    [[Player.mk ['G'] 3 true, Player.mk ['H'] 3 false], [Player.mk ['I'] 3 false]]
    [("🔴", "Red"), ("🔵", "Blue")] [6, 3]
    (by omega) (by decide) 0 1 (by omega) (by omega)

end Soccer
